import Mathlib

/-!
Verification development for the streaming chat-state reducer of the
Lim-Code webview front-end.

The definitions below are a shallow embedding of the TypeScript source:
  * the chunk handlers of `src/unnamed/part_003` (handleChunkType,
    handleToolsExecuting, handleToolStatus, handleAwaitingConfirmation,
    handleToolIteration, handleComplete, handleCheckpoints,
    handleCancelled, handleError);
  * the window manager of `src/unnamed/part_004`
    (syncTotalMessagesFromWindow, setTotalMessagesFromWindow,
    trimWindowFromTop).

Modelling conventions:
  * optional / possibly-`undefined` TS fields become `Option`;
  * JavaScript truthiness on strings ("" is falsy) and numbers (0 is
    falsy) is made explicit through `optStrTruthy` / `optNatTruthy`;
  * the external collaborators that are not part of this repository's
    reducer (`contentToMessage`, `addTextToMessage`,
    `processStreamingText`, `flushToolCallBuffer`,
    `handleFunctionCallPart`) are abstract function parameters;
  * the injected callbacks `addCheckpoint` and
    `updateConversationAfterMessage` act outside `ChatStoreState`, so
    invoking them has no effect on the state modelled here and the
    calls are dropped from the embedding;
  * the fresh ids produced by `generateId`, the clock value `Date.now()`
    and the `currentModelName()` string are passed as explicit
    arguments;
  * a TS object spread `{...message, ...finalMessage, ...}` where
    `finalMessage` is a full `Message` produced by the builder is
    modelled as the builder's record with the explicitly listed fields
    overridden.
-/

/-- Message role (`'user' | 'assistant'`). -/
inductive Role where
  | user
  | assistant
deriving DecidableEq

/-- Tool lifecycle status (the `status` union of a ToolCall). -/
inductive ToolStatus where
  | streaming
  | queued
  | executing
  | awaiting_approval
  | awaiting_apply
  | success
  | error
deriving DecidableEq

/-- Stream-level error value (`{code, message}`). -/
structure StreamError where
  code : String
  message : String
deriving DecidableEq

/-- Token usage block carried by a terminal backend chunk. -/
structure Usage where
  thoughtsTokenCount : Option Nat
  candidatesTokenCount : Option Nat
deriving DecidableEq

/-- Message metadata bag (only the fields the reducer reads or writes). -/
structure Metadata where
  modelVersion : Option String
  thinkingStartTime : Option Nat
  thinkingDuration : Option Nat
  responseDuration : Option Nat
  streamDuration : Option Nat
  firstChunkTime : Option Nat
  chunkCount : Option Nat
  usageMetadata : Option Usage
  thoughtsTokenCount : Option Nat
  candidatesTokenCount : Option Nat
deriving DecidableEq

/-- The all-absent metadata object (`{}`). -/
def emptyMetadata : Metadata :=
  ⟨none, none, none, none, none, none, none, none, none, none⟩

/-- A native function-call fragment carried by a content part. -/
structure FunctionCall where
  name : String
  args : String
deriving DecidableEq

/-- Result payload of a tool execution.  `cancelled` / `rejected` are the
JS-truthiness of the corresponding fields; `data` abstracts the rest. -/
structure ToolResultPayload where
  cancelled : Bool
  rejected : Bool
  data : String
deriving DecidableEq

/-- A `functionResponse` fragment (`{name, response, id}`). -/
structure FunctionResponse where
  name : String
  response : ToolResultPayload
  id : Option String
deriving DecidableEq

/-- One content part of a message. -/
structure ContentPart where
  text : Option String
  thought : Bool
  functionCall : Option FunctionCall
  functionResponse : Option FunctionResponse
deriving DecidableEq

/-- One tool invocation tracked inside a message. -/
structure ToolCall where
  id : String
  status : ToolStatus
  result : Option ToolResultPayload
deriving DecidableEq

/-- A conversation message. -/
structure Message where
  id : String
  role : Role
  content : String
  parts : Option (List ContentPart)
  tools : Option (List ToolCall)
  metadata : Option Metadata
  streaming : Bool
  localOnly : Bool
  isFunctionResponse : Bool
  timestamp : Nat
deriving DecidableEq

/-- A checkpoint record. -/
structure CheckpointRecord where
  id : String
  timestamp : Nat
  toolName : String
  messageIndex : Nat
deriving DecidableEq

/-- The aggregate chat store state mutated by the handlers. -/
structure ChatStoreState where
  allMessages : List Message
  streamingMessageId : Option String
  isStreaming : Bool
  isWaitingForResponse : Bool
  checkpoints : List CheckpointRecord
  windowStartIndex : Nat
  totalMessages : Nat
  historyFolded : Bool
  foldedMessageCount : Nat
  error : Option StreamError
deriving DecidableEq

/-- JS truthiness of an optional string: `undefined`/`null` and `""` are
falsy. -/
def optStrTruthy : Option String → Bool
  | some s => s ≠ ""
  | none => false

/-- JS truthiness of an optional number: `undefined` and `0` are falsy. -/
def optNatTruthy : Option Nat → Bool
  | some n => n ≠ 0
  | none => false

/-- Backend chunk payload (`chunk.chunk` of a `chunk`-kind event). -/
structure BackendChunk where
  delta : Option (List ContentPart)
  done : Bool
  usage : Option Usage
  thinkingStartTime : Option Nat
deriving DecidableEq

/-- Finalized backend content payload.  Only the timing fields read by
`handleCancelled` are explicit; `data` abstracts the rest of the payload
consumed by the black-box builder `contentToMessage`. -/
structure Content where
  thinkingDuration : Option Nat
  responseDuration : Option Nat
  streamDuration : Option Nat
  firstChunkTime : Option Nat
  chunkCount : Option Nat
  data : String
deriving DecidableEq

instance : Inhabited Content := ⟨⟨none, none, none, none, none, ""⟩⟩

/-- One entry of `chunk.toolResults`. -/
structure ToolResultEntry where
  id : Option String
  name : String
  result : ToolResultPayload
deriving DecidableEq

/-- The tool payload of a `toolStatus`-kind event. -/
structure ToolUpdate where
  id : String
  status : ToolStatus
  result : Option ToolResultPayload
deriving DecidableEq

/-- One entry of `chunk.pendingToolCalls`. -/
structure PendingTool where
  id : String
deriving DecidableEq

/-- A stream event (`StreamChunk`); fields are present or absent
depending on the event kind. -/
structure StreamChunk where
  chunk : Option BackendChunk
  content : Option Content
  toolStatus : Bool
  tool : Option ToolUpdate
  pendingToolCalls : Option (List PendingTool)
  toolResults : Option (List ToolResultEntry)
  checkpoints : Option (List CheckpointRecord)
  error : Option StreamError
deriving DecidableEq

/-- The all-absent stream event; concrete events override fields. -/
def emptyChunk : StreamChunk :=
  ⟨none, none, false, none, none, none, none, none⟩

/-- Index of the last element satisfying `p` (the backward scan
`for (let i = all.length - 1; i >= 0; i--)`). -/
def findLastIdx? (p : α → Bool) : List α → Option Nat
  | [] => none
  | a :: l =>
    match findLastIdx? p l with
    | some i => some (i + 1)
    | none => if p a then some 0 else none

/-- JS `Map.set` on an association list keyed by tool id: an existing key
keeps its position and gets the new value, a new key is appended. -/
def mapSet (m : List (String × ToolCall)) (k : String) (v : ToolCall) :
    List (String × ToolCall) :=
  if m.any (fun p => p.1 = k) then
    m.map (fun p => if p.1 = k then (k, v) else p)
  else m ++ [(k, v)]

/-- Merge of an existing tool array `a` with a rebuilt one `b`:
entries of `a` win, entries of `b` are appended only when their id is
absent from `a` (the shared merge block of `handleToolsExecuting` and
`handleAwaitingConfirmation`). -/
def mergeTools (a b : List ToolCall) : List ToolCall :=
  if a.isEmpty then b
  else if b.isEmpty then a
  else
    let m1 := a.foldl (fun m t => mapSet m t.id t) []
    let m2 := b.foldl
      (fun m t => if m.any (fun p => p.1 = t.id) then m else m ++ [(t.id, t)]) m1
    m2.map (fun p => p.2)

/-- Restore the pre-existing `modelVersion` (when truthy) into the
builder's metadata and drop `thinkingStartTime`; `none` metadata is left
alone (the `if (metadata)` guard). -/
def restoreMeta (existing : Option String) : Option Metadata → Option Metadata
  | none => none
  | some md =>
    some { md with
           modelVersion := if optStrTruthy existing then existing else md.modelVersion,
           thinkingStartTime := none }

/-- The (truthy) function-response ids carried by the parts of one
hidden `isFunctionResponse` message; empty for every other message. -/
def responseIdsOfMessage (m : Message) : List String :=
  if m.isFunctionResponse then
    (m.parts.getD []).filterMap (fun p =>
      match p.functionResponse with
      | some fr => if optStrTruthy fr.id then some (fr.id.getD "") else none
      | none => none)
  else []

/-- The tool-result ids already represented by a part of some hidden
`isFunctionResponse` message — the dedup scan shared by
`handleAwaitingConfirmation` and `handleToolIteration`.  The source
builds a JS `Set` and only queries membership, so the order- and
duplication-free list below is membership-equivalent. -/
def existingResponseIds (msgs : List Message) : List String :=
  (msgs.map responseIdsOfMessage).flatten

/-- The synthesized `functionResponse` parts for the tool results whose
(truthy) id is not yet represented in the history. -/
def newResponseParts (msgs : List Message) (results : List ToolResultEntry) :
    List ContentPart :=
  (results.filter
      (fun r => optStrTruthy r.id && !((existingResponseIds msgs).contains (r.id.getD ""))))
    |>.map (fun r =>
      { text := none, thought := false, functionCall := none,
        functionResponse := some { name := r.name, response := r.result, id := r.id } })

/-- Append the synthetic hidden function-response message when there are
new parts (the `if (newParts.length > 0) push(...)` block). -/
def appendFunctionResponses (respMsgId : String) (now : Nat)
    (results : List ToolResultEntry) (msgs : List Message) : List Message :=
  let parts := newResponseParts msgs results
  if parts.isEmpty then msgs
  else
    msgs ++ [{ id := respMsgId, role := .user, content := "", timestamp := now,
               isFunctionResponse := true, parts := some parts,
               tools := none, metadata := none, streaming := false, localOnly := false }]

/-- The emptiness test shared by `handleCancelled` and `handleError`:
`message.parts && message.parts.some(p => p.text || p.functionCall)`. -/
def hasPartsContent (m : Message) : Bool :=
  (m.parts.getD []).any (fun p => optStrTruthy p.text || p.functionCall.isSome)

/-- `!message.content && !message.tools && !hasPartsContent`. -/
def isEmptyShell (m : Message) : Bool :=
  m.content == "" && m.tools.isNone && !(hasPartsContent m)

/-- Pure value of the streaming message after `handleChunkType`'s
in-place mutations: parts/metadata initialization, the delta loop routing
text through `addTextToMessage` (thought) or `processStreamingText`
(plain) and function-call parts through `handleFunctionCallPart`, the
`thinkingStartTime` mirror, and the terminal usage copy. -/
def chunkUpdateMessage (addText procText : Message → String → Message)
    (fcHandler : ContentPart → Message → Message)
    (bc : BackendChunk) (delta : List ContentPart) (m0 : Message) : Message :=
  let m1 := if m0.parts = none then { m0 with parts := some [] } else m0
  let m2 := delta.foldl
    (fun m p =>
      let m' := if optStrTruthy p.text then
          (if p.thought then addText m (p.text.getD "") else procText m (p.text.getD ""))
        else m
      if p.functionCall.isSome then fcHandler p m' else m')
    m1
  let m3 := if m2.metadata = none then { m2 with metadata := some emptyMetadata } else m2
  let m4 := if optNatTruthy bc.thinkingStartTime then
      { m3 with metadata := some { (m3.metadata.getD emptyMetadata) with
                                   thinkingStartTime := bc.thinkingStartTime } }
    else m3
  if bc.done then
    match bc.usage with
    | some u =>
      { m4 with metadata := some { (m4.metadata.getD emptyMetadata) with
                                   usageMetadata := some u,
                                   thoughtsTokenCount := u.thoughtsTokenCount,
                                   candidatesTokenCount := u.candidatesTokenCount } }
    | none => m4
  else m4

/-- `handleChunkType`: locate the streaming message and apply the delta
updates to it in place (the slot keeps the updated value). -/
def handleChunkType (addText procText : Message → String → Message)
    (fcHandler : ContentPart → Message → Message)
    (c : StreamChunk) (s : ChatStoreState) : ChatStoreState :=
  match c.chunk with
  | none => s
  | some bc =>
    match bc.delta with
    | none => s
    | some dl =>
      match s.allMessages.findIdx? (fun m => some m.id == s.streamingMessageId) with
      | none => s
      | some i =>
        match s.allMessages.get? i with
        | none => s
        | some m =>
          { s with allMessages :=
              s.allMessages.set i (chunkUpdateMessage addText procText fcHandler bc dl m) }

/-- The merged rebuild shared by `handleToolsExecuting` and
`handleAwaitingConfirmation`: rebuild the message through the builder,
merge-prefer the existing tools, force `streaming=false`/`localOnly=false`
and restore `modelVersion`. -/
def mergedRebuild (contentToMessage : Content → String → Message)
    (ct : Content) (message : Message) : Message :=
  let existingModelVersion := message.metadata.bind (fun md => md.modelVersion)
  let existingTools := message.tools
  let finalMessage := contentToMessage ct message.id
  let merged := mergeTools (existingTools.getD []) (finalMessage.tools.getD [])
  let updated0 : Message :=
    { finalMessage with streaming := false, localOnly := false,
                        tools := if merged.length > 0 then some merged else none }
  { updated0 with metadata := restoreMeta existingModelVersion updated0.metadata }

/-- The per-tool rank assignment of `handleToolsExecuting`: the head of
the pending list (when truthy) becomes `executing`, later pending ids
become `queued`, a tool still `streaming` falls back to `queued`. -/
def teRankTool (executingId : Option String) (queuedIds : List String)
    (tool : ToolCall) : ToolCall :=
  let baseStatus := if tool.status = .streaming then ToolStatus.queued else tool.status
  if optStrTruthy executingId ∧ executingId = some tool.id then
    { tool with status := .executing }
  else if queuedIds.contains tool.id then
    { tool with status := .queued }
  else { tool with status := baseStatus }

/-- The rebuilt message of `handleToolsExecuting`. -/
def teRebuild (contentToMessage : Content → String → Message) (c : StreamChunk)
    (ct : Content) (message : Message) : Message :=
  let updated1 := mergedRebuild contentToMessage ct message
  let pending := c.pendingToolCalls.getD []
  let executingId := (pending.head?).map (fun p => p.id)
  let queuedIds := (pending.drop 1).map (fun p => p.id)
  { updated1 with
    tools := updated1.tools.map (fun ts => ts.map (teRankTool executingId queuedIds)) }

/-- `handleToolsExecuting`: force `isStreaming`, rebuild the streaming
message from the event content, merge-prefer the existing tools, restore
`modelVersion`, and assign executing/queued ranks from the pending list. -/
def handleToolsExecuting (contentToMessage : Content → String → Message)
    (c : StreamChunk) (s : ChatStoreState) : ChatStoreState :=
  let msgs :=
    match s.allMessages.findIdx? (fun m => some m.id == s.streamingMessageId), c.content with
    | some i, some ct =>
      match s.allMessages.get? i with
      | some message => s.allMessages.set i (teRebuild contentToMessage c ct message)
      | none => s.allMessages
    | _, _ => s.allMessages
  { s with isStreaming := true, allMessages := msgs }

/-- The per-tool update of `handleToolStatus`: the matched tool's status
is overwritten and the event result, when present, replaces the prior
one (`result: toolUpdate.result ?? t.result`); other tools unchanged. -/
def applyToolUpdate (u : ToolUpdate) (t : ToolCall) : ToolCall :=
  if t.id ≠ u.id then t
  else { t with status := u.status,
                result := match u.result with
                          | some r => some r
                          | none => t.result }

/-- Locate the message owning the tool id of a `toolStatus` event:
preferentially the `streamingMessageId` message (when it is an assistant
message containing the tool id), else the most recent assistant message
containing it (backward scan). -/
def locateToolMessage (u : ToolUpdate) (s : ChatStoreState) : Option Nat :=
  let all := s.allMessages
  let preferred :=
    if optStrTruthy s.streamingMessageId then
      match all.findIdx? (fun m => some m.id == s.streamingMessageId) with
      | some idx =>
        match all.get? idx with
        | some m =>
          if m.role = .assistant ∧ (m.tools.getD []).any (fun t => t.id == u.id) then
            some idx
          else none
        | none => none
      | none => none
    else none
  match preferred with
  | some idx => some idx
  | none =>
    findLastIdx?
      (fun m => m.role == Role.assistant && (m.tools.getD []).any (fun t => t.id == u.id))
      all

/-- `handleToolStatus`: overwrite the matched tool's status with the
event's status; the event result, when present, replaces the prior one
(kept otherwise). -/
def handleToolStatus (c : StreamChunk) (s : ChatStoreState) : ChatStoreState :=
  if c.toolStatus = false then s
  else
    match c.tool with
    | none => s
    | some u =>
      match locateToolMessage u s with
      | none => s
      | some i =>
        match s.allMessages.get? i with
        | none => s
        | some message =>
          let updatedTools := message.tools.map (fun ts => ts.map (applyToolUpdate u))
          { s with allMessages := s.allMessages.set i { message with tools := updatedTools } }

/-- The per-tool status sync of `handleAwaitingConfirmation`: pending
tools become `awaiting_approval`, tools with a pre-computed result become
`success` or `error` (per cancelled/rejected flags) and receive that
result, remaining `streaming` tools fall back to `queued`. -/
def acStatusTool (pendingIds : List String) (results : List ToolResultEntry)
    (tool : ToolCall) : ToolCall :=
  let baseStatus := if tool.status = .streaming then ToolStatus.queued else tool.status
  if pendingIds.contains tool.id then
    { tool with status := .awaiting_approval }
  else
    match results.reverse.find? (fun r => r.id == some tool.id) with
    | some r =>
      { tool with
        status := if r.result.cancelled || r.result.rejected then ToolStatus.error
                  else ToolStatus.success,
        result := some r.result }
    | none => { tool with status := baseStatus }

/-- The rebuilt message of `handleAwaitingConfirmation`: the merged
rebuild followed by the awaiting/result status sync. -/
def acRebuild (contentToMessage : Content → String → Message) (c : StreamChunk)
    (ct : Content) (message : Message) : Message :=
  let updated1 := mergedRebuild contentToMessage ct message
  let pendingIds := (c.pendingToolCalls.getD []).map (fun p => p.id)
  let results := c.toolResults.getD []
  { updated1 with
    tools := updated1.tools.map (fun ts => ts.map (acStatusTool pendingIds results)) }

/-- The shared "materialize new tool results as a hidden
function-response message" step, guarded by
`chunk.toolResults && chunk.toolResults.length > 0`. -/
def syncResponseMessages (respMsgId : String) (now : Nat)
    (tr : Option (List ToolResultEntry)) (msgs : List Message) : List Message :=
  match tr with
  | some results =>
    if results.length > 0 then appendFunctionResponses respMsgId now results msgs
    else msgs
  | none => msgs

/-- `handleAwaitingConfirmation`: rebuild-and-merge the streaming
message, mark pending tools `awaiting_approval`, sync pre-computed
results, materialize new tool results as a hidden function-response
message (dedup by id across the whole history), and stop `isStreaming`. -/
def handleAwaitingConfirmation (contentToMessage : Content → String → Message)
    (respMsgId : String) (now : Nat)
    (c : StreamChunk) (s : ChatStoreState) : ChatStoreState :=
  let msgs1 :=
    match s.allMessages.findIdx? (fun m => some m.id == s.streamingMessageId), c.content with
    | some i, some ct =>
      match s.allMessages.get? i with
      | some message => s.allMessages.set i (acRebuild contentToMessage c ct message)
      | none => s.allMessages
    | _, _ => s.allMessages
  let msgs2 := syncResponseMessages respMsgId now c.toolResults msgs1
  { s with allMessages := msgs2, isStreaming := false }

/-- The ids of tool results flagged `cancelled` that carry a truthy id
(`if ((r.result as any).cancelled && r.id) cancelledToolIds.add(r.id)`). -/
def cancelledIdsOf (results : List ToolResultEntry) : List String :=
  results.filterMap
    (fun r => if r.result.cancelled ∧ optStrTruthy r.id then some (r.id.getD "") else none)

/-- The ids of tool results flagged `rejected` that carry a truthy id. -/
def rejectedIdsOf (results : List ToolResultEntry) : List String :=
  results.filterMap
    (fun r => if r.result.rejected ∧ optStrTruthy r.id then some (r.id.getD "") else none)

/-- The rebuilt message of `handleToolIteration`: finalize through the
builder, restore `modelVersion`, keep existing tools when the builder
yields none, then mark cancelled/rejected tools `error` and every other
tool `success`. -/
def tiRebuild (contentToMessage : Content → String → Message) (c : StreamChunk)
    (message : Message) : Message :=
  let results := c.toolResults.getD []
  let cancelledToolIds := cancelledIdsOf results
  let rejectedToolIds := rejectedIdsOf results
  let existingTools := message.tools
  let existingModelVersion := message.metadata.bind (fun md => md.modelVersion)
  let finalMessage := contentToMessage (c.content.getD default) message.id
  let finalMeta := restoreMeta existingModelVersion finalMessage.metadata
  let restoredTools0 := finalMessage.tools
  let restoredTools1 :=
    if existingTools.isSome ∧ (restoredTools0.getD []).isEmpty then existingTools
    else restoredTools0
  let restoredTools2 := restoredTools1.map (fun ts => ts.map (fun tool =>
    { tool with
      status :=
        if cancelledToolIds.contains tool.id || rejectedToolIds.contains tool.id then
          ToolStatus.error
        else ToolStatus.success }))
  { finalMessage with metadata := finalMeta, streaming := false, localOnly := false,
                      tools := restoredTools2 }

/-- `handleToolIteration`: finalize the streaming message, keep existing
tool history when the builder yields none, mark cancelled/rejected tools
`error` and the rest `success`, append deduped hidden function responses,
then either terminate the turn (some tool cancelled) or append a new
streaming assistant placeholder. -/
def handleToolIteration (contentToMessage : Content → String → Message)
    (modelName respMsgId newAsstId : String) (now : Nat)
    (c : StreamChunk) (s : ChatStoreState) : ChatStoreState :=
  let results := c.toolResults.getD []
  let hasCancelledTools := !(cancelledIdsOf results).isEmpty
  let msgs1 :=
    match s.allMessages.findIdx? (fun m => some m.id == s.streamingMessageId) with
    | some i =>
      match s.allMessages.get? i with
      | some message => s.allMessages.set i (tiRebuild contentToMessage c message)
      | none => s.allMessages
    | none => s.allMessages
  let msgs2 := syncResponseMessages respMsgId now c.toolResults msgs1
  if hasCancelledTools then
    { s with allMessages := msgs2, streamingMessageId := none,
             isStreaming := false, isWaitingForResponse := false }
  else
    let newAssistantMessage : Message :=
      { id := newAsstId, role := .assistant, content := "", timestamp := now,
        streaming := true, localOnly := true,
        metadata := some { emptyMetadata with modelVersion := some modelName },
        parts := none, tools := none, isFunctionResponse := false }
    { s with allMessages := msgs2 ++ [newAssistantMessage],
             streamingMessageId := some newAsstId,
             isStreaming := true, isWaitingForResponse := true }

/-- `handleComplete`: flush the inline tool-call buffer, finalize the
message through the builder, restore `modelVersion`, and clear the
streaming state. -/
def handleComplete (contentToMessage : Content → String → Message)
    (flushBuf : Message → Message)
    (c : StreamChunk) (s : ChatStoreState) : ChatStoreState :=
  let msgs1 :=
    match s.allMessages.findIdx? (fun m => some m.id == s.streamingMessageId) with
    | some i =>
      match s.allMessages.get? i with
      | some message0 =>
        let message := flushBuf message0
        let existingModelVersion := message.metadata.bind (fun md => md.modelVersion)
        let finalMessage := contentToMessage (c.content.getD default) message.id
        let finalMeta :=
          match finalMessage.metadata with
          | some md =>
            if optStrTruthy existingModelVersion then
              some { md with modelVersion := existingModelVersion }
            else some md
          | none => none
        let updatedMessage : Message :=
          { finalMessage with metadata := finalMeta, streaming := false, localOnly := false }
        s.allMessages.set i updatedMessage
      | none => s.allMessages
    | none => s.allMessages
  { s with allMessages := msgs1, streamingMessageId := none,
           isStreaming := false, isWaitingForResponse := false }

/-- `handleCheckpoints` only forwards `chunk.checkpoints` to the injected
`addCheckpoint` callback, which lives outside `ChatStoreState`; the state
itself is untouched. -/
def handleCheckpoints (_c : StreamChunk) (s : ChatStoreState) : ChatStoreState := s

/-- Locate the message a `cancelled` event targets: the
`streamingMessageId` message when that id is set, else the last message
provided it is a non-streaming assistant message. -/
def locateCancelledMessage (s : ChatStoreState) : Option Nat :=
  if optStrTruthy s.streamingMessageId then
    s.allMessages.findIdx? (fun m => some m.id == s.streamingMessageId)
  else
    match s.allMessages.get? (s.allMessages.length - 1) with
    | some lastMsg =>
      if lastMsg.role = .assistant ∧ lastMsg.streaming = false then
        some (s.allMessages.length - 1)
      else none
    | none => none

/-- `handleCancelled`: delete an untouched placeholder outright, otherwise
merge event timing metadata, force every non-terminal tool to `error`,
and clear the streaming state. -/
def handleCancelled (c : StreamChunk) (s : ChatStoreState) : ChatStoreState :=
  let msgs :=
    match locateCancelledMessage s with
    | none => s.allMessages
    | some i =>
      match s.allMessages.get? i with
      | none => s.allMessages
      | some message =>
        if isEmptyShell message then
          s.allMessages.eraseIdx i
        else
          let md0 := message.metadata.getD emptyMetadata
          let md1 :=
            match c.content with
            | some ct =>
              { md0 with
                thinkingDuration :=
                  if ct.thinkingDuration.isSome then ct.thinkingDuration
                  else md0.thinkingDuration,
                responseDuration :=
                  if ct.responseDuration.isSome then ct.responseDuration
                  else md0.responseDuration,
                streamDuration :=
                  if ct.streamDuration.isSome then ct.streamDuration
                  else md0.streamDuration,
                firstChunkTime :=
                  if ct.firstChunkTime.isSome then ct.firstChunkTime
                  else md0.firstChunkTime,
                chunkCount :=
                  if ct.chunkCount.isSome then ct.chunkCount
                  else md0.chunkCount }
            | none => md0
          let updatedTools := message.tools.map (fun ts => ts.map (fun tool =>
            if tool.status = .streaming ∨ tool.status = .queued
               ∨ tool.status = .awaiting_approval ∨ tool.status = .executing
               ∨ tool.status = .awaiting_apply then
              { tool with status := .error }
            else tool))
          let updatedMessage : Message :=
            { message with streaming := false, localOnly := false,
                           metadata := some md1, tools := updatedTools }
          s.allMessages.set i updatedMessage
  { s with allMessages := msgs, streamingMessageId := none,
           isStreaming := false, isWaitingForResponse := false }

/-- `handleError`: surface the event error (default `STREAM_ERROR`),
remove an empty in-flight placeholder, and clear the streaming state. -/
def handleError (c : StreamChunk) (s : ChatStoreState) : ChatStoreState :=
  let err :=
    match c.error with
    | some e => e
    | none => { code := "STREAM_ERROR", message := "Stream error" }
  let removeAndClear :=
    match s.streamingMessageId with
    | some smid =>
      if smid ≠ "" then
        let removeIt :=
          match s.allMessages.find? (fun m => m.id == smid) with
          | some m => isEmptyShell m
          | none => false
        some ((if removeIt then s.allMessages.filter (fun m => m.id != smid)
               else s.allMessages))
      else none
    | none => some s.allMessages
  match removeAndClear with
  | some msgs =>
    { s with error := some err, allMessages := msgs, streamingMessageId := none,
             isStreaming := false, isWaitingForResponse := false }
  | none =>
    { s with error := some err,
             isStreaming := false, isWaitingForResponse := false }

/-- Default message window cap (hidden function-response carriers
included in the count). -/
def MAX_WINDOW_MESSAGES : Nat := 800

/-- `syncTotalMessagesFromWindow`: raise `totalMessages` to
`max(totalMessages, windowStartIndex + allMessages.length)`. -/
def syncTotalMessagesFromWindow (s : ChatStoreState) : ChatStoreState :=
  { s with
    totalMessages := max s.totalMessages (s.windowStartIndex + s.allMessages.length) }

/-- `setTotalMessagesFromWindow`: force `totalMessages` to the window
coverage (`Math.max(0, ...)` is the identity on `Nat`). -/
def setTotalMessagesFromWindow (s : ChatStoreState) : ChatStoreState :=
  { s with totalMessages := s.windowStartIndex + s.allMessages.length }

/-- `trimWindowFromTop`: returns the new state and the number of removed
messages. -/
def trimWindowFromTop (s : ChatStoreState) (maxCount : Nat) :
    ChatStoreState × Nat :=
  let all := s.allMessages
  if all.length ≤ maxCount then (s, 0)
  else
    let overflow := all.length - maxCount
    let s1 := { s with
                allMessages := all.drop overflow,
                windowStartIndex := s.windowStartIndex + overflow }
    let s2 := { s1 with
                checkpoints :=
                  s1.checkpoints.filter
                    (fun cp => decide (s1.windowStartIndex ≤ cp.messageIndex)),
                historyFolded := true,
                foldedMessageCount := s1.foldedMessageCount + overflow }
    (syncTotalMessagesFromWindow s2, overflow)

/-- Reference-level state: messages live in numbered heap cells and
`order` holds, for each entry of `allMessages`, the index of its cell.
This lower-level model makes JS object identity observable: writing
through an existing reference changes a cell in place, while
copy-on-write allocates a fresh cell and repoints the array slot. -/
structure RefState where
  cells : List Message
  order : List Nat
  streamingMessageId : Option String
deriving DecidableEq

/-- `handleChunkType` at the reference level: the streaming message is
obtained by `find` (a live reference) and all updates are written through
it, so the located cell itself is overwritten. -/
def handleChunkTypeRef (addText procText : Message → String → Message)
    (fcHandler : ContentPart → Message → Message)
    (c : StreamChunk) (s : RefState) : RefState :=
  match c.chunk with
  | none => s
  | some bc =>
    match bc.delta with
    | none => s
    | some dl =>
      match s.order.find? (fun r =>
          match s.cells.get? r with
          | some m => some m.id == s.streamingMessageId
          | none => false) with
      | none => s
      | some r =>
        match s.cells.get? r with
        | none => s
        | some m =>
          { s with cells :=
              s.cells.set r (chunkUpdateMessage addText procText fcHandler bc dl m) }

/-- `handleToolStatus` at the reference level: the updated message is a
new object (`{...message, tools: updatedTools}`) written into a fresh
cell; the slot of `allMessages` is repointed to it and every pre-existing
cell is left untouched. -/
def handleToolStatusRef (c : StreamChunk) (s : RefState) : RefState :=
  if c.toolStatus = false then s
  else
    match c.tool with
    | none => s
    | some u =>
      let owns := fun (r : Nat) =>
        match s.cells.get? r with
        | some m =>
          m.role == Role.assistant && (m.tools.getD []).any (fun t => t.id == u.id)
        | none => false
      let preferred :=
        if optStrTruthy s.streamingMessageId then
          match s.order.findIdx? (fun r =>
              match s.cells.get? r with
              | some m => some m.id == s.streamingMessageId
              | none => false) with
          | some k =>
            match s.order.get? k with
            | some r => if owns r then some k else none
            | none => none
          | none => none
        else none
      let located :=
        match preferred with
        | some k => some k
        | none => findLastIdx? (fun r => owns r) s.order
      match located with
      | none => s
      | some k =>
        match s.order.get? k with
        | none => s
        | some r =>
          match s.cells.get? r with
          | none => s
          | some message =>
            let updatedTools := message.tools.map (fun ts => ts.map (applyToolUpdate u))
            { s with cells := s.cells ++ [{ message with tools := updatedTools }],
                     order := s.order.set k s.cells.length }

/-- One core operation: the dispatch of one stream event through its
handler, or a window-manager call.  The abstract collaborators and the
injected fresh ids travel inside the constructor. -/
inductive CoreOp where
  | chunkEv (addText procText : Message → String → Message)
      (fcHandler : ContentPart → Message → Message) (c : StreamChunk)
  | toolsExecutingEv (builder : Content → String → Message) (c : StreamChunk)
  | toolStatusEv (c : StreamChunk)
  | awaitingConfirmationEv (builder : Content → String → Message)
      (respMsgId : String) (now : Nat) (c : StreamChunk)
  | toolIterationEv (builder : Content → String → Message)
      (modelName respMsgId newAsstId : String) (now : Nat) (c : StreamChunk)
  | completeEv (builder : Content → String → Message)
      (flushBuf : Message → Message) (c : StreamChunk)
  | checkpointsEv (c : StreamChunk)
  | cancelledEv (c : StreamChunk)
  | errorEv (c : StreamChunk)
  | trimWindow (maxCount : Nat)
  | syncTotal

/-- Apply one core operation to the store. -/
def applyOp (s : ChatStoreState) : CoreOp → ChatStoreState
  | .chunkEv a p f c => handleChunkType a p f c s
  | .toolsExecutingEv b c => handleToolsExecuting b c s
  | .toolStatusEv c => handleToolStatus c s
  | .awaitingConfirmationEv b r n c => handleAwaitingConfirmation b r n c s
  | .toolIterationEv b mn r a n c => handleToolIteration b mn r a n c s
  | .completeEv b f c => handleComplete b f c s
  | .checkpointsEv c => handleCheckpoints c s
  | .cancelledEv c => handleCancelled c s
  | .errorEv c => handleError c s
  | .trimWindow m => (trimWindowFromTop s m).1
  | .syncTotal => syncTotalMessagesFromWindow s

/-- Apply a sequence of core operations left to right. -/
def applyOps (s : ChatStoreState) (ops : List CoreOp) : ChatStoreState :=
  ops.foldl applyOp s

/-- Contribution of one message to the number of hidden function-response
parts carrying result id `r`: zero unless the message is an
`isFunctionResponse` carrier. -/
def contribFR (r : String) (m : Message) : Nat :=
  if m.isFunctionResponse then
    ((m.parts.getD []).filter (fun p =>
      match p.functionResponse with
      | some fr => fr.id == some r
      | none => false)).length
  else 0

/-- Number of hidden function-response parts carrying result id `r`
anywhere in the history. -/
def countFR (r : String) (msgs : List Message) : Nat :=
  (msgs.map (contribFR r)).sum

/-! ### Concrete fixtures used by witnesses and counterexamples -/

/-- A resolved tool result payload. -/
def exResult : ToolResultPayload := ⟨false, false, "ok"⟩

/-- A tool call already in the terminal `success` status. -/
def exTool : ToolCall := ⟨"t1", .success, some exResult⟩

/-- An in-flight assistant message with one successful tool. -/
def exMsg : Message :=
  ⟨"m1", .assistant, "hi", none, some [exTool], none, true, true, false, 0⟩

/-- An in-flight assistant message with two streaming tools. -/
def exMsg2 : Message :=
  ⟨"m1", .assistant, "hi", none,
   some [⟨"t1", .streaming, none⟩, ⟨"t2", .streaming, none⟩],
   none, true, true, false, 0⟩

/-- An untouched empty assistant placeholder. -/
def exEmptyMsg : Message :=
  ⟨"m1", .assistant, "", none, none, none, true, true, false, 0⟩

/-- A store state streaming into `exMsg`. -/
def exState : ChatStoreState :=
  ⟨[exMsg], some "m1", true, true, [], 0, 1, false, 0, none⟩

/-- A store state streaming into `exMsg2`. -/
def exState2 : ChatStoreState :=
  ⟨[exMsg2], some "m1", true, true, [], 0, 1, false, 0, none⟩

/-- A store state streaming into an empty placeholder. -/
def exStateEmpty : ChatStoreState :=
  ⟨[exEmptyMsg], some "m1", true, true, [], 0, 1, false, 0, none⟩

/-- A ten-message state with two checkpoints, for the window-trim witness. -/
def exState10 : ChatStoreState :=
  ⟨List.replicate 10 exMsg, some "m1", true, true,
   [⟨"c1", 0, "tn", 2⟩, ⟨"c2", 0, "tn", 5⟩], 0, 10, false, 0, none⟩

/-- A concrete stand-in for the black-box `contentToMessage` builder:
a plain finalized assistant message carrying the requested id. -/
def exBuilder : Content → String → Message := fun _ mid =>
  ⟨mid, .assistant, "done", none, none, none, false, false, false, 0⟩

/-- A `toolStatus` event moving `t1` back to `queued` with no result. -/
def evToolStatusQueued : StreamChunk :=
  { emptyChunk with toolStatus := true, tool := some ⟨"t1", .queued, none⟩ }

/-- A `toolIteration` event whose sole result is flagged cancelled but
carries no id. -/
def evIterCancelNoId : StreamChunk :=
  { emptyChunk with
    content := some default,
    toolResults := some [⟨none, "x", ⟨true, false, "d"⟩⟩] }

/-- An event carrying one tool result with id `r` (used for both the
awaiting-confirmation and the tool-iteration step of the dedup replay). -/
def evResultR : StreamChunk :=
  { emptyChunk with
    content := some default,
    toolResults := some [⟨some "r", "toolA", ⟨false, false, "out"⟩⟩] }

/-- A `toolsExecuting` event with pending calls `t1`, `t2`. -/
def evToolsExec : StreamChunk :=
  { emptyChunk with
    content := some default,
    pendingToolCalls := some [⟨"t1"⟩, ⟨"t2"⟩] }

/-- A `chunk` event with an empty delta array and terminal usage data. -/
def evDoneUsage : StreamChunk :=
  { emptyChunk with
    chunk := some { delta := some [], done := true,
                    usage := some ⟨some 1, some 2⟩, thinkingStartTime := none } }

/-- A reference-level state holding one assistant message in cell 0. -/
def exRefState : RefState :=
  ⟨[exEmptyMsg], [0], some "m1"⟩

/-- A reference-level state holding `exMsg` (one successful tool). -/
def exRefStateTool : RefState :=
  ⟨[exMsg], [0], some "m1"⟩

/-! ## Shared lemmas -/

theorem countFR_cons (r : String) (m : Message) (l : List Message) :
    countFR r (m :: l) = contribFR r m + countFR r l := by
  simp [countFR]

theorem countFR_append (r : String) (l1 l2 : List Message) :
    countFR r (l1 ++ l2) = countFR r l1 + countFR r l2 := by
  simp [countFR]

theorem countFR_eq_zero_iff (r : String) (l : List Message) :
    countFR r l = 0 ↔ ∀ m ∈ l, contribFR r m = 0 := by
  simp [countFR, List.sum_eq_zero_iff]

theorem countFR_pos_exists (r : String) (l : List Message)
    (h : 0 < countFR r l) : ∃ m ∈ l, 0 < contribFR r m := by
  by_contra hc
  push_neg at hc
  have : countFR r l = 0 := (countFR_eq_zero_iff r l).mpr (fun m hm => by
    have := hc m hm
    omega)
  omega

theorem contribFR_of_not_fr (r : String) (m : Message)
    (h : m.isFunctionResponse = false) : contribFR r m = 0 := by
  simp [contribFR, h]

theorem countFR_set (r : String) :
    ∀ (l : List Message) (i : Nat) (m' : Message) (h : i < l.length),
      countFR r (l.set i m') + contribFR r (l.get ⟨i, h⟩) =
        countFR r l + contribFR r m'
  | [], i, m', h => by simp at h
  | a :: l, 0, m', h => by
    simp [countFR_cons]
    omega
  | a :: l, i + 1, m', h => by
    have ih := countFR_set r l i m' (by simpa using h)
    simp only [List.get_eq_getElem] at ih
    simp [countFR_cons, List.set]
    omega

theorem findLastIdx?_eq_none_of_all (p : α → Bool) :
    ∀ (l : List α), (∀ a ∈ l, p a = false) → findLastIdx? p l = none
  | [], _ => rfl
  | a :: l, h => by
    have hl := findLastIdx?_eq_none_of_all p l (fun x hx => h x (List.mem_cons_of_mem a hx))
    simp [findLastIdx?, hl, h a (List.mem_cons_self a l)]

theorem mem_responseIds_iff_contrib_pos (r : String) (hr : r ≠ "") (m : Message) :
    r ∈ responseIdsOfMessage m ↔ 0 < contribFR r m := by
  unfold responseIdsOfMessage contribFR
  by_cases hf : m.isFunctionResponse
  · simp only [hf, if_true, List.mem_filterMap, List.length_pos, ← List.countP_eq_length_filter]
    rw [List.countP_pos_iff]
    constructor
    · rintro ⟨p, hp, hfp⟩
      refine ⟨p, hp, ?_⟩
      rcases hfr : p.functionResponse with _ | fr
      · simp [hfr] at hfp
      · simp only [hfr] at hfp ⊢
        rcases hid : fr.id with _ | x
        · simp [hid, optStrTruthy] at hfp
        · simp [hid, optStrTruthy] at hfp
          rcases hfp with ⟨hx, hxr⟩
          simp [hxr]
    · rintro ⟨p, hp, hfp⟩
      refine ⟨p, hp, ?_⟩
      rcases hfr : p.functionResponse with _ | fr
      · simp [hfr] at hfp
      · simp only [hfr] at hfp ⊢
        rcases hid : fr.id with _ | x
        · simp [hid] at hfp
        · simp [hid] at hfp
          subst hfp
          simp [optStrTruthy, hr]
  · simp [hf]

theorem mem_existing_iff (r : String) (hr : r ≠ "") (l : List Message) :
    r ∈ existingResponseIds l ↔ ∃ m ∈ l, 0 < contribFR r m := by
  unfold existingResponseIds
  simp only [List.mem_flatten, List.mem_map]
  constructor
  · rintro ⟨ids, ⟨m, hm, rfl⟩, hr2⟩
    exact ⟨m, hm, (mem_responseIds_iff_contrib_pos r hr m).mp hr2⟩
  · rintro ⟨m, hm, hpos⟩
    exact ⟨responseIdsOfMessage m, ⟨m, hm, rfl⟩,
      (mem_responseIds_iff_contrib_pos r hr m).mpr hpos⟩

theorem length_filter_newResponseParts (r : String) (hr : r ≠ "")
    (msgs : List Message) (results : List ToolResultEntry) :
    ((newResponseParts msgs results).filter (fun p =>
        match p.functionResponse with
        | some fr => fr.id == some r
        | none => false)).length =
      if (existingResponseIds msgs).contains r then 0
      else (results.filter (fun e => e.id == some r)).length := by
  unfold newResponseParts
  rw [List.filter_map, List.length_map, List.filter_filter]
  by_cases hc : (existingResponseIds msgs).contains r
  · rw [if_pos hc]
    rw [List.length_eq_zero]
    rw [List.filter_eq_nil_iff]
    intro e _
    rcases hid : e.id with _ | x
    · simp [hid]
    · by_cases hx : x = r
      · subst hx
        simp [hid, hc]
        intro _
        exact List.mem_of_elem_eq_true hc
      · simp [hid, Function.comp, hx]
  · rw [if_neg hc]
    congr 1
    apply List.filter_congr
    intro e _
    rcases hid : e.id with _ | x
    · simp [hid, optStrTruthy]
    · by_cases hx : x = r
      · subst hx
        simp [hid, optStrTruthy, hr]
        intro hmem
        exact hc (List.elem_eq_true_of_mem hmem)
      · simp [hid, Function.comp, hx]

theorem countFR_appendFunctionResponses (r : String) (hr : r ≠ "")
    (rid : String) (now : Nat)
    (results : List ToolResultEntry) (msgs : List Message) :
    countFR r (appendFunctionResponses rid now results msgs) =
      countFR r msgs +
        (if (existingResponseIds msgs).contains r then 0
         else (results.filter (fun e => e.id == some r)).length) := by
  unfold appendFunctionResponses
  by_cases hp : (newResponseParts msgs results).isEmpty
  · rw [if_pos hp]
    have hnil : newResponseParts msgs results = [] := List.isEmpty_iff.mp hp
    have hlen := length_filter_newResponseParts r hr msgs results
    rw [hnil] at hlen
    simp only [List.filter_nil, List.length_nil] at hlen
    omega
  · rw [if_neg hp]
    rw [countFR_append, countFR_cons]
    have hcontrib :
        contribFR r
          { id := rid, role := .user, content := "", timestamp := now,
            isFunctionResponse := true, parts := some (newResponseParts msgs results),
            tools := none, metadata := none, streaming := false, localOnly := false } =
        ((newResponseParts msgs results).filter (fun p =>
            match p.functionResponse with
            | some fr => fr.id == some r
            | none => false)).length := by
      simp [contribFR]
    rw [hcontrib, length_filter_newResponseParts r hr msgs results]
    simp [countFR]

theorem countFR_syncResponseMessages (r : String) (hr : r ≠ "")
    (rid : String) (now : Nat) (tr : Option (List ToolResultEntry))
    (msgs : List Message) :
    countFR r (syncResponseMessages rid now tr msgs) =
      countFR r msgs +
        (if (existingResponseIds msgs).contains r then 0
         else ((tr.getD []).filter (fun e => e.id == some r)).length) := by
  unfold syncResponseMessages
  rcases tr with _ | results
  · simp
  · simp only [Option.getD_some]
    by_cases hlen : results.length > 0
    · rw [if_pos hlen]
      exact countFR_appendFunctionResponses r hr rid now results msgs
    · rw [if_neg hlen]
      have : results = [] := by
        cases results
        · rfl
        · simp at hlen
      subst this
      simp

theorem countFR_pos_iff (r : String) (l : List Message) :
    0 < countFR r l ↔ ∃ m ∈ l, 0 < contribFR r m := by
  constructor
  · exact countFR_pos_exists r l
  · rintro ⟨m, hm, hpos⟩
    have hle : contribFR r m ≤ countFR r l := by
      unfold countFR
      exact List.single_le_sum (fun x _ => Nat.zero_le x) _ (List.mem_map_of_mem _ hm)
    omega

theorem contribZero_set (r : String) (l : List Message) (i : Nat) (x : Message)
    (h : ∀ m ∈ l, contribFR r m = 0) (hx : contribFR r x = 0) :
    ∀ m ∈ l.set i x, contribFR r m = 0 := by
  intro m hm
  rcases List.mem_or_eq_of_mem_set hm with h1 | h2
  · exact h m h1
  · subst h2
    exact hx

theorem countFR_set_of_pred (r : String) (l : List Message) (i : Nat) (x : Message)
    (p : Message → Bool)
    (hidx : l.findIdx? p = some i)
    (hx : contribFR r x = 0)
    (hnp : ∀ m ∈ l, 0 < contribFR r m → p m = false) :
    countFR r (l.set i x) = countFR r l := by
  obtain ⟨hlt, hpi, -⟩ := List.findIdx?_eq_some_iff_getElem.mp hidx
  have hzero : contribFR r (l.get ⟨i, hlt⟩) = 0 := by
    by_contra hne
    have hpos : 0 < contribFR r (l.get ⟨i, hlt⟩) := Nat.pos_of_ne_zero hne
    have hmem : l.get ⟨i, hlt⟩ ∈ l := List.get_mem l i hlt
    have := hnp _ hmem hpos
    simp only [List.get_eq_getElem] at this
    rw [this] at hpi
    exact Bool.false_ne_true hpi
  have hsum := countFR_set r l i x hlt
  omega

theorem acRebuild_isFR (b : Content → String → Message) (c : StreamChunk)
    (ct : Content) (m : Message) :
    (acRebuild b c ct m).isFunctionResponse = (b ct m.id).isFunctionResponse := rfl

theorem teRebuild_isFR (b : Content → String → Message) (c : StreamChunk)
    (ct : Content) (m : Message) :
    (teRebuild b c ct m).isFunctionResponse = (b ct m.id).isFunctionResponse := rfl

theorem tiRebuild_isFR (b : Content → String → Message) (c : StreamChunk)
    (m : Message) :
    (tiRebuild b c m).isFunctionResponse =
      (b (c.content.getD default) m.id).isFunctionResponse := rfl

theorem mem_appendFunctionResponses (rid : String) (now : Nat)
    (results : List ToolResultEntry) (msgs : List Message) (m : Message)
    (hm : m ∈ appendFunctionResponses rid now results msgs) :
    m ∈ msgs ∨ m.id = rid := by
  unfold appendFunctionResponses at hm
  by_cases hp : (newResponseParts msgs results).isEmpty
  · rw [if_pos hp] at hm
    exact Or.inl hm
  · rw [if_neg hp] at hm
    rcases List.mem_append.mp hm with h | h
    · exact Or.inl h
    · right
      rw [List.mem_singleton] at h
      subst h
      rfl

theorem mem_syncResponseMessages (rid : String) (now : Nat)
    (tr : Option (List ToolResultEntry)) (msgs : List Message) (m : Message)
    (hm : m ∈ syncResponseMessages rid now tr msgs) :
    m ∈ msgs ∨ m.id = rid := by
  unfold syncResponseMessages at hm
  rcases tr with _ | results
  · exact Or.inl hm
  · simp only at hm
    by_cases hlen : results.length > 0
    · rw [if_pos hlen] at hm
      exact mem_appendFunctionResponses rid now results msgs m hm
    · rw [if_neg hlen] at hm
      exact Or.inl hm

theorem AC_step_countFR (b : Content → String → Message)
    (hb : ∀ ct mid, (b ct mid).isFunctionResponse = false)
    (rid : String) (now : Nat) (c : StreamChunk) (s : ChatStoreState)
    (r : String) (hr : r ≠ "")
    (hnp : ∀ m ∈ s.allMessages, 0 < contribFR r m →
      (some m.id == s.streamingMessageId) = false) :
    countFR r (handleAwaitingConfirmation b rid now c s).allMessages =
      countFR r s.allMessages +
        (if 0 < countFR r s.allMessages then 0
         else ((c.toolResults.getD []).filter (fun e => e.id == some r)).length) := by
  simp only [handleAwaitingConfirmation]
  have h1 : countFR r
      (match s.allMessages.findIdx? (fun m => some m.id == s.streamingMessageId),
             c.content with
       | some i, some ct =>
         match s.allMessages.get? i with
         | some message => s.allMessages.set i (acRebuild b c ct message)
         | none => s.allMessages
       | _, _ => s.allMessages) = countFR r s.allMessages := by
    split
    · rename_i i ct hidx hct
      split
      · rename_i message hget
        refine countFR_set_of_pred r _ i _ _ hidx ?_ hnp
        apply contribFR_of_not_fr
        rw [acRebuild_isFR]
        exact hb ct message.id
      · rfl
    · rfl
  have hgen : ∀ M : List Message, countFR r M = countFR r s.allMessages →
      countFR r (syncResponseMessages rid now c.toolResults M) =
        countFR r s.allMessages +
          (if 0 < countFR r s.allMessages then 0
           else ((c.toolResults.getD []).filter (fun e => e.id == some r)).length) := by
    intro M hM
    rw [countFR_syncResponseMessages r hr, hM]
    by_cases hcond : 0 < countFR r s.allMessages
    · have hex : ∃ m ∈ M, 0 < contribFR r m := countFR_pos_exists r M (by omega)
      have hcont : (existingResponseIds M).contains r = true :=
        List.elem_eq_true_of_mem ((mem_existing_iff r hr M).mpr hex)
      rw [if_pos hcont, if_pos hcond]
    · have hcont : ¬((existingResponseIds M).contains r = true) := by
        intro hcc
        obtain ⟨m, hmM, hp⟩ :=
          (mem_existing_iff r hr M).mp (List.mem_of_elem_eq_true hcc)
        have : 0 < countFR r M := (countFR_pos_iff r M).mpr ⟨m, hmM, hp⟩
        omega
      rw [if_neg hcont, if_neg hcond]
  exact hgen _ h1

theorem AC_pos_ids (b : Content → String → Message)
    (hb : ∀ ct mid, (b ct mid).isFunctionResponse = false)
    (rid : String) (now : Nat) (c : StreamChunk) (s : ChatStoreState)
    (r : String) (h0 : countFR r s.allMessages = 0) :
    ∀ m ∈ (handleAwaitingConfirmation b rid now c s).allMessages,
      0 < contribFR r m → m.id = rid := by
  simp only [handleAwaitingConfirmation]
  intro m hm hpos
  have hz : ∀ m' ∈
      (match s.allMessages.findIdx? (fun m => some m.id == s.streamingMessageId),
             c.content with
       | some i, some ct =>
         match s.allMessages.get? i with
         | some message => s.allMessages.set i (acRebuild b c ct message)
         | none => s.allMessages
       | _, _ => s.allMessages), contribFR r m' = 0 := by
    split
    · rename_i i ct hidx hct
      split
      · rename_i message hget
        exact contribZero_set r _ i _ ((countFR_eq_zero_iff r _).mp h0)
          (contribFR_of_not_fr _ _ (by rw [acRebuild_isFR]; exact hb ct message.id))
      · exact (countFR_eq_zero_iff r _).mp h0
    · exact (countFR_eq_zero_iff r _).mp h0
  rcases mem_syncResponseMessages rid now c.toolResults _ m hm with hmm | hid
  · exfalso
    have := hz m hmm
    omega
  · exact hid

theorem TI_step_countFR (b : Content → String → Message)
    (hb : ∀ ct mid, (b ct mid).isFunctionResponse = false)
    (mn rid aid : String) (now : Nat) (c : StreamChunk) (s : ChatStoreState)
    (r : String) (hr : r ≠ "")
    (hpos : 0 < countFR r s.allMessages)
    (hnp : ∀ m ∈ s.allMessages, 0 < contribFR r m →
      (some m.id == s.streamingMessageId) = false) :
    countFR r (handleToolIteration b mn rid aid now c s).allMessages =
      countFR r s.allMessages := by
  simp only [handleToolIteration]
  have h1 : countFR r
      (match s.allMessages.findIdx? (fun m => some m.id == s.streamingMessageId) with
       | some i =>
         match s.allMessages.get? i with
         | some message => s.allMessages.set i (tiRebuild b c message)
         | none => s.allMessages
       | none => s.allMessages) = countFR r s.allMessages := by
    split
    · rename_i i hidx
      split
      · rename_i message hget
        refine countFR_set_of_pred r _ i _ _ hidx ?_ hnp
        apply contribFR_of_not_fr
        rw [tiRebuild_isFR]
        exact hb _ message.id
      · rfl
    · rfl
  have h2 : countFR r (syncResponseMessages rid now c.toolResults
      (match s.allMessages.findIdx? (fun m => some m.id == s.streamingMessageId) with
       | some i =>
         match s.allMessages.get? i with
         | some message => s.allMessages.set i (tiRebuild b c message)
         | none => s.allMessages
       | none => s.allMessages)) = countFR r s.allMessages := by
    rw [countFR_syncResponseMessages r hr, h1]
    have hex := countFR_pos_exists r _ (h1 ▸ hpos)
    have hcont : (existingResponseIds _).contains r = true :=
      List.elem_eq_true_of_mem ((mem_existing_iff r hr _).mpr hex)
    rw [if_pos hcont]
    omega
  split
  · exact h2
  · simp only [countFR_append]
    rw [h2]
    simp [countFR, contribFR]

/-- C3: For every sequence of an awaiting-confirmation event followed by
a tool-iteration event whose toolResults both carry the same result id
`r` (a truthy id, carried once by the first event, not yet represented in
the history), the resulting history contains exactly one hidden
function-response message part with that id: each handler appends a
`functionResponse` part only for result ids not already present in the
parts of some `isFunctionResponse` message anywhere in the in-memory
history, so the replay of the same id is deduplicated. -/
theorem dedup_idempotent_replay (b : Content → String → Message)
    (hb : ∀ ct mid, (b ct mid).isFunctionResponse = false)
    (mn rid1 rid2 aid : String) (now1 now2 : Nat)
    (c1 c2 : StreamChunk) (s : ChatStoreState) (r : String)
    (hr : r ≠ "")
    (h0 : countFR r s.allMessages = 0)
    (h1 : ((c1.toolResults.getD []).filter (fun e => e.id == some r)).length = 1)
    (_h2 : ∃ e ∈ c2.toolResults.getD [], e.id = some r)
    (hfresh : s.streamingMessageId ≠ some rid1) :
    countFR r
      (handleToolIteration b mn rid2 aid now2 c2
        (handleAwaitingConfirmation b rid1 now1 c1 s)).allMessages = 1 := by
  have hnp0 : ∀ m ∈ s.allMessages, 0 < contribFR r m →
      (some m.id == s.streamingMessageId) = false := by
    intro m hm hpos
    exfalso
    have := (countFR_eq_zero_iff r _).mp h0 m hm
    omega
  have hAC : countFR r (handleAwaitingConfirmation b rid1 now1 c1 s).allMessages = 1 := by
    rw [AC_step_countFR b hb rid1 now1 c1 s r hr hnp0, h0]
    simpa using h1
  have hsmid : (handleAwaitingConfirmation b rid1 now1 c1 s).streamingMessageId =
      s.streamingMessageId := rfl
  have hposed : ∀ m ∈ (handleAwaitingConfirmation b rid1 now1 c1 s).allMessages,
      0 < contribFR r m →
      (some m.id == (handleAwaitingConfirmation b rid1 now1 c1 s).streamingMessageId)
        = false := by
    intro m hm hpos
    have hid := AC_pos_ids b hb rid1 now1 c1 s r h0 m hm hpos
    rw [hsmid, hid]
    rcases hq : s.streamingMessageId with _ | v
    · rfl
    · refine beq_eq_false_iff_ne.mpr ?_
      intro he
      apply hfresh
      rw [hq]
      rw [Option.some_inj] at he
      rw [he]
  rw [TI_step_countFR b hb mn rid2 aid now2 c2
    (handleAwaitingConfirmation b rid1 now1 c1 s) r hr (by omega) hposed]
  exact hAC

/-- Witness for C3 at a concrete replayed result id. -/
theorem dedup_idempotent_replay_witness :
    countFR "r"
      (handleToolIteration exBuilder "gpt" "resp2" "a2" 9 evResultR
        (handleAwaitingConfirmation exBuilder "resp1" 5 evResultR exState)).allMessages
      = 1 :=
  dedup_idempotent_replay exBuilder (fun _ _ => rfl) "gpt" "resp1" "resp2" "a2" 5 9
    evResultR evResultR exState "r" (by decide) (by decide) (by decide)
    (by decide) (by decide)

/-- C1 counterexample: a tool already in the terminal `success` status,
hit by a `toolStatus` event carrying the earlier-rank status `queued` and
no result, is moved back to the non-terminal `queued` status by
`handleToolStatus` — the claimed terminal-state monotonicity fails. -/
theorem toolStatus_terminal_regression_cex :
    (exState.allMessages.map (fun m => (m.tools.getD []).map (fun t => t.status))
        = [[ToolStatus.success]]) ∧
    evToolStatusQueued.tool = some ⟨"t1", ToolStatus.queued, none⟩ ∧
    ((handleToolStatus evToolStatusQueued exState).allMessages.map
        (fun m => (m.tools.getD []).map (fun t => t.status))
      = [[ToolStatus.queued]]) ∧
    ToolStatus.queued ≠ ToolStatus.success ∧ ToolStatus.queued ≠ ToolStatus.error := by
  decide

/-- C1 (amended): `handleToolStatus` overwrites the matched tool's
status with the event's status unconditionally — even away from a
terminal status — while the existing result is preserved exactly when
the event carries none (`result: toolUpdate.result ?? t.result`). -/
theorem handleToolStatus_overwrites_status (c : StreamChunk) (s : ChatStoreState)
    (u : ToolUpdate) (i : Nat) (m : Message) (ts : List ToolCall) (k : Nat)
    (t : ToolCall)
    (htS : c.toolStatus = true) (hu : c.tool = some u)
    (hloc : locateToolMessage u s = some i)
    (hm : s.allMessages[i]? = some m)
    (hts : m.tools = some ts)
    (htk : ts[k]? = some t) (hid : t.id = u.id) :
    (handleToolStatus c s).allMessages[i]? =
        some { m with tools := some (ts.map (applyToolUpdate u)) } ∧
    (ts.map (applyToolUpdate u))[k]? =
        some { t with status := u.status,
                      result := (match u.result with
                                 | some r => some r
                                 | none => t.result) } := by
  constructor
  · have hlen : i < s.allMessages.length := by
      rcases List.getElem?_eq_some.mp hm with ⟨h, -⟩
      exact h
    unfold handleToolStatus
    rw [htS]
    simp only [Bool.true_eq_false, if_false, hu, hloc]
    rw [List.get?_eq_getElem?] at *
    simp only [hm]
    simp only [List.getElem?_set_self hlen, hts]
    rfl
  · rw [List.getElem?_map, htk]
    simp [applyToolUpdate, hid]

/-- Witness for the amended C1 at a concrete terminal tool. -/
theorem handleToolStatus_overwrites_status_witness :
    (handleToolStatus evToolStatusQueued exState).allMessages[0]? =
        some { exMsg with
               tools := some ([exTool].map
                 (applyToolUpdate ⟨"t1", ToolStatus.queued, none⟩)) } ∧
    ([exTool].map (applyToolUpdate ⟨"t1", ToolStatus.queued, none⟩))[0]? =
        some { exTool with status := ToolStatus.queued, result := exTool.result } :=
  handleToolStatus_overwrites_status evToolStatusQueued exState
    ⟨"t1", ToolStatus.queued, none⟩ 0 exMsg [exTool] 0 exTool
    (by decide) (by decide) (by decide) (by decide) (by decide) (by decide) (by decide)

theorem mem_option_map_map {f : ToolCall → ToolCall} {o : Option (List ToolCall)}
    {t : ToolCall} (ht : t ∈ (o.map (fun ts => ts.map f)).getD []) :
    ∃ t0, t = f t0 := by
  rcases o with _ | ts
  · simp at ht
  · simp at ht
    obtain ⟨t0, -, rfl⟩ := ht
    exact ⟨t0, rfl⟩

theorem tiRebuild_tools_status (b : Content → String → Message) (c : StreamChunk)
    (m : Message) :
    ∀ t ∈ (tiRebuild b c m).tools.getD [],
      t.status = if (cancelledIdsOf (c.toolResults.getD [])).contains t.id
          || (rejectedIdsOf (c.toolResults.getD [])).contains t.id then
          ToolStatus.error else ToolStatus.success := by
  intro t ht
  have htools : (tiRebuild b c m).tools =
      (if m.tools.isSome ∧ ((b (c.content.getD default) m.id).tools.getD []).isEmpty
       then m.tools else (b (c.content.getD default) m.id).tools).map
        (fun ts => ts.map (fun tool =>
          { tool with
            status :=
              if (cancelledIdsOf (c.toolResults.getD [])).contains tool.id
                  || (rejectedIdsOf (c.toolResults.getD [])).contains tool.id then
                ToolStatus.error
              else ToolStatus.success })) := rfl
  rw [htools] at ht
  obtain ⟨t0, rfl⟩ := mem_option_map_map ht
  rfl

theorem getElem?_syncResponseMessages (rid : String) (now : Nat)
    (tr : Option (List ToolResultEntry)) (msgs : List Message) (j : Nat)
    (hj : j < msgs.length) :
    (syncResponseMessages rid now tr msgs)[j]? = msgs[j]? := by
  unfold syncResponseMessages appendFunctionResponses
  rcases tr with _ | results
  · rfl
  · simp only
    split
    · split
      · rfl
      · rw [List.getElem?_append, if_pos hj]
    · rfl

theorem drop_syncResponseMessages_user (rid : String) (now : Nat)
    (tr : Option (List ToolResultEntry)) (msgs : List Message) :
    ∀ m' ∈ (syncResponseMessages rid now tr msgs).drop msgs.length,
      m'.role = Role.user := by
  unfold syncResponseMessages appendFunctionResponses
  rcases tr with _ | results
  · simp
  · simp only
    split
    · split
      · simp
      · rw [List.drop_left]
        intro m' hm'
        rw [List.mem_singleton] at hm'
        subst hm'
        rfl
    · simp

theorem length_syncResponseMessages_ge (rid : String) (now : Nat)
    (tr : Option (List ToolResultEntry)) (msgs : List Message) :
    msgs.length ≤ (syncResponseMessages rid now tr msgs).length := by
  unfold syncResponseMessages appendFunctionResponses
  rcases tr with _ | results
  · simp
  · simp only
    split
    · split
      · simp
      · simp
    · simp

/-- C2 (amended): when `streamingMessageId` matches message `i`, a
tool-iteration event re-statuses every tool of the finalized message:
`error` exactly when the tool's id is among the (truthy) ids of results
flagged cancelled or rejected, `success` otherwise.  If at least one
result carrying a truthy id is flagged cancelled, the turn terminates
(`streamingMessageId := null`, both flags false, only user-role
function-response carriers may have been appended); otherwise a new empty
streaming assistant placeholder is appended, becomes the new
`streamingMessageId`, and both flags become true.  (The original claim's
"at least one result is flagged cancelled" must be restricted to results
that carry a truthy id: an id-less cancelled result is ignored by the
termination test.) -/
theorem handleToolIteration_outcome (b : Content → String → Message)
    (mn rid aid : String) (now : Nat) (c : StreamChunk) (s : ChatStoreState)
    (i : Nat) (m : Message)
    (hidx : s.allMessages.findIdx? (fun m' => some m'.id == s.streamingMessageId)
      = some i)
    (hm : s.allMessages[i]? = some m) :
    (∀ m', (handleToolIteration b mn rid aid now c s).allMessages[i]? = some m' →
       ∀ t ∈ m'.tools.getD [],
         t.status = if (cancelledIdsOf (c.toolResults.getD [])).contains t.id
             || (rejectedIdsOf (c.toolResults.getD [])).contains t.id then
             ToolStatus.error else ToolStatus.success) ∧
    (cancelledIdsOf (c.toolResults.getD []) ≠ [] →
       (handleToolIteration b mn rid aid now c s).streamingMessageId = none ∧
       (handleToolIteration b mn rid aid now c s).isStreaming = false ∧
       (handleToolIteration b mn rid aid now c s).isWaitingForResponse = false ∧
       ∀ m' ∈ (handleToolIteration b mn rid aid now c s).allMessages.drop
           s.allMessages.length, m'.role = Role.user) ∧
    (cancelledIdsOf (c.toolResults.getD []) = [] →
       (handleToolIteration b mn rid aid now c s).allMessages.getLast? = some
         { id := aid, role := .assistant, content := "", timestamp := now,
           streaming := true, localOnly := true,
           metadata := some { emptyMetadata with modelVersion := some mn },
           parts := none, tools := none, isFunctionResponse := false } ∧
       (handleToolIteration b mn rid aid now c s).streamingMessageId = some aid ∧
       (handleToolIteration b mn rid aid now c s).isStreaming = true ∧
       (handleToolIteration b mn rid aid now c s).isWaitingForResponse = true) := by
  have hlen : i < s.allMessages.length := by
    rcases List.getElem?_eq_some.mp hm with ⟨h, -⟩
    exact h
  have hlenset : (s.allMessages.set i (tiRebuild b c m)).length
      = s.allMessages.length := List.length_set s.allMessages i _
  refine ⟨?_, ?_, ?_⟩
  · intro m' hm' t ht
    have hget : (handleToolIteration b mn rid aid now c s).allMessages[i]? =
        some (tiRebuild b c m) := by
      unfold handleToolIteration
      simp only [hidx, List.get?_eq_getElem?, hm]
      split
      · rw [getElem?_syncResponseMessages rid now c.toolResults _ i (by omega)]
        rw [List.getElem?_set_self (by omega)]
      · rw [List.getElem?_append, if_pos (by
          have := length_syncResponseMessages_ge rid now c.toolResults
            (s.allMessages.set i (tiRebuild b c m))
          omega)]
        rw [getElem?_syncResponseMessages rid now c.toolResults _ i (by omega)]
        rw [List.getElem?_set_self (by omega)]
    rw [hget] at hm'
    rw [Option.some_inj] at hm'
    subst hm'
    exact tiRebuild_tools_status b c m t ht
  · intro hc
    have hcb : (!(cancelledIdsOf (c.toolResults.getD [])).isEmpty) = true := by
      simp [List.isEmpty_iff, hc]
    unfold handleToolIteration
    simp only [hidx, List.get?_eq_getElem?, hm, hcb, if_true]
    refine ⟨by trivial, by trivial, by trivial, ?_⟩
    intro m' hm'
    apply drop_syncResponseMessages_user rid now c.toolResults
      (s.allMessages.set i (tiRebuild b c m)) m'
    rw [hlenset]
    exact hm'
  · intro hc
    have hcb : (!(cancelledIdsOf (c.toolResults.getD [])).isEmpty) = false := by
      simp [List.isEmpty_iff, hc]
    unfold handleToolIteration
    simp only [hidx, List.get?_eq_getElem?, hm, hcb, if_false, Bool.false_eq_true]
    exact ⟨List.getLast?_concat _, by trivial, by trivial, by trivial⟩

/-- Witness for the amended C2: a cancelled result carrying a truthy id
terminates the turn and appends no assistant placeholder. -/
theorem handleToolIteration_outcome_witness :
    (handleToolIteration exBuilder "gpt" "r1" "a1" 7
        (⟨none, some default, false, none, none,
          some [⟨some "t1", "x", ⟨true, false, "d"⟩⟩], none, none⟩ : StreamChunk)
        exState).streamingMessageId = none ∧
    (handleToolIteration exBuilder "gpt" "r1" "a1" 7
        (⟨none, some default, false, none, none,
          some [⟨some "t1", "x", ⟨true, false, "d"⟩⟩], none, none⟩ : StreamChunk)
        exState).isStreaming = false ∧
    (handleToolIteration exBuilder "gpt" "r1" "a1" 7
        (⟨none, some default, false, none, none,
          some [⟨some "t1", "x", ⟨true, false, "d"⟩⟩], none, none⟩ : StreamChunk)
        exState).isWaitingForResponse = false ∧
    ∀ m' ∈ (handleToolIteration exBuilder "gpt" "r1" "a1" 7
        (⟨none, some default, false, none, none,
          some [⟨some "t1", "x", ⟨true, false, "d"⟩⟩], none, none⟩ : StreamChunk)
        exState).allMessages.drop exState.allMessages.length,
      m'.role = Role.user :=
  (handleToolIteration_outcome exBuilder "gpt" "r1" "a1" 7
      (⟨none, some default, false, none, none,
        some [⟨some "t1", "x", ⟨true, false, "d"⟩⟩], none, none⟩ : StreamChunk)
      exState 0 exMsg (by decide) (by decide)).2.1 (by decide)

/-- C2 counterexample: a tool-iteration event whose sole result is
flagged `cancelled` but carries no id does NOT terminate the turn —
`handleToolIteration` appends a fresh streaming assistant placeholder and
sets both flags true, contradicting the claim as stated. -/
theorem handleToolIteration_cancel_flag_cex :
    (∃ e ∈ evIterCancelNoId.toolResults.getD [], e.result.cancelled = true) ∧
    exState.allMessages.findIdx?
        (fun m' => some m'.id == exState.streamingMessageId) = some 0 ∧
    (handleToolIteration exBuilder "gpt" "r1" "a1" 7 evIterCancelNoId exState).isStreaming
        = true ∧
    (handleToolIteration exBuilder "gpt" "r1" "a1" 7 evIterCancelNoId
        exState).streamingMessageId = some "a1" ∧
    (handleToolIteration exBuilder "gpt" "r1" "a1" 7 evIterCancelNoId
        exState).allMessages.length = exState.allMessages.length + 1 := by
  decide

theorem isEmptyShell_eq_true (m : Message) (h1 : m.content = "")
    (h2 : m.tools = none) (h3 : hasPartsContent m = false) :
    isEmptyShell m = true := by
  simp [isEmptyShell, h1, h2, h3]

/-- C5: `trimWindowFromTop` is a no-op returning 0 when the window is
within the cap; otherwise it removes exactly `len - max` messages from
the front, advances `windowStartIndex` by that amount, returns the
removed count, keeps exactly the checkpoints at or beyond the new
`windowStartIndex`, sets `historyFolded`, and adds the removed count to
`foldedMessageCount`. -/
theorem trimWindowFromTop_spec (s : ChatStoreState) (maxCount : Nat) :
    (s.allMessages.length ≤ maxCount → trimWindowFromTop s maxCount = (s, 0)) ∧
    (maxCount < s.allMessages.length →
      (trimWindowFromTop s maxCount).2 = s.allMessages.length - maxCount ∧
      (trimWindowFromTop s maxCount).1.allMessages =
        s.allMessages.drop (s.allMessages.length - maxCount) ∧
      (trimWindowFromTop s maxCount).1.windowStartIndex =
        s.windowStartIndex + (s.allMessages.length - maxCount) ∧
      (trimWindowFromTop s maxCount).1.checkpoints =
        s.checkpoints.filter (fun cp =>
          decide (s.windowStartIndex + (s.allMessages.length - maxCount)
            ≤ cp.messageIndex)) ∧
      (trimWindowFromTop s maxCount).1.historyFolded = true ∧
      (trimWindowFromTop s maxCount).1.foldedMessageCount =
        s.foldedMessageCount + (s.allMessages.length - maxCount)) := by
  constructor
  · intro h
    unfold trimWindowFromTop
    rw [if_pos h]
  · intro h
    unfold trimWindowFromTop
    rw [if_neg (by omega)]
    exact ⟨rfl, rfl, rfl, rfl, rfl, rfl⟩

/-- Witness for C5 on a 10-message window trimmed to 7. -/
theorem trimWindowFromTop_spec_witness :
    (trimWindowFromTop exState10 7).2 = exState10.allMessages.length - 7 ∧
    (trimWindowFromTop exState10 7).1.allMessages =
      exState10.allMessages.drop (exState10.allMessages.length - 7) ∧
    (trimWindowFromTop exState10 7).1.windowStartIndex =
      exState10.windowStartIndex + (exState10.allMessages.length - 7) ∧
    (trimWindowFromTop exState10 7).1.checkpoints =
      exState10.checkpoints.filter (fun cp =>
        decide (exState10.windowStartIndex + (exState10.allMessages.length - 7)
          ≤ cp.messageIndex)) ∧
    (trimWindowFromTop exState10 7).1.historyFolded = true ∧
    (trimWindowFromTop exState10 7).1.foldedMessageCount =
      exState10.foldedMessageCount + (exState10.allMessages.length - 7) :=
  (trimWindowFromTop_spec exState10 7).2 (by decide)

/-- C7: `handleError` surfaces the event error (defaulting to
`STREAM_ERROR`/`Stream error`), removes the in-flight message when it
is an empty shell (no content, no tools, no part with text or a
function call), and clears `streamingMessageId` and both streaming
flags.  (Well-formedness: `streamingMessageId` is never the empty
string — ids come from `generateId`.) -/
theorem handleError_spec (c : StreamChunk) (s : ChatStoreState)
    (hw : s.streamingMessageId ≠ some "") :
    (handleError c s).error = some (c.error.getD ⟨"STREAM_ERROR", "Stream error"⟩) ∧
    (∀ smid m, s.streamingMessageId = some smid →
       s.allMessages.find? (fun m' => m'.id == smid) = some m →
       m.content = "" → m.tools = none → hasPartsContent m = false →
       (handleError c s).allMessages = s.allMessages.filter (fun m' => m'.id != smid)) ∧
    (handleError c s).streamingMessageId = none ∧
    (handleError c s).isStreaming = false ∧
    (handleError c s).isWaitingForResponse = false := by
  rcases hq : s.streamingMessageId with _ | smid
  · unfold handleError
    simp only [hq]
    refine ⟨?_, ?_, by trivial, by trivial, by trivial⟩
    · rcases he : c.error with _ | e <;> simp [he]
    · intro smid m hsm
      exact absurd hsm (by simp)
  · have hne : smid ≠ "" := by
      intro h
      exact hw (by rw [hq, h])
    unfold handleError
    simp only [hq, if_pos hne]
    refine ⟨?_, ?_, by trivial, by trivial, by trivial⟩
    · rcases he : c.error with _ | e <;> simp [he]
    · intro smid0 m hsm hfind h1 h2 h3
      rw [Option.some_inj] at hsm
      subst hsm
      rw [hfind]
      rw [if_pos (isEmptyShell_eq_true m h1 h2 h3)]

/-- Witness for C7: an error event with no payload on an empty
placeholder. -/
theorem handleError_spec_witness :
    (handleError emptyChunk exStateEmpty).error =
      some (emptyChunk.error.getD ⟨"STREAM_ERROR", "Stream error"⟩) ∧
    (handleError emptyChunk exStateEmpty).allMessages =
      exStateEmpty.allMessages.filter (fun m' => m'.id != "m1") ∧
    (handleError emptyChunk exStateEmpty).streamingMessageId = none ∧
    (handleError emptyChunk exStateEmpty).isStreaming = false ∧
    (handleError emptyChunk exStateEmpty).isWaitingForResponse = false := by
  have h := handleError_spec emptyChunk exStateEmpty (by decide)
  exact ⟨h.1, h.2.1 "m1" exEmptyMsg (by decide) (by decide) (by decide) (by decide)
    (by decide), h.2.2.1, h.2.2.2.1, h.2.2.2.2⟩

theorem applyOp_counters (s : ChatStoreState) (op : CoreOp) :
    s.foldedMessageCount ≤ (applyOp s op).foldedMessageCount ∧
    s.totalMessages ≤ (applyOp s op).totalMessages := by
  cases op with
  | chunkEv a p f c =>
    refine ⟨?_, ?_⟩ <;> (simp only [applyOp]; unfold handleChunkType; repeat' split) <;> rfl
  | toolsExecutingEv b c => exact ⟨Nat.le_refl _, Nat.le_refl _⟩
  | toolStatusEv c =>
    refine ⟨?_, ?_⟩ <;> (simp only [applyOp]; unfold handleToolStatus; (try dsimp only); repeat' split) <;> rfl
  | awaitingConfirmationEv b r n c => exact ⟨Nat.le_refl _, Nat.le_refl _⟩
  | toolIterationEv b mn r a n c =>
    refine ⟨?_, ?_⟩ <;> (simp only [applyOp]; unfold handleToolIteration; (try dsimp only); repeat' split) <;> rfl
  | completeEv b f c => exact ⟨Nat.le_refl _, Nat.le_refl _⟩
  | checkpointsEv c => exact ⟨Nat.le_refl _, Nat.le_refl _⟩
  | cancelledEv c => exact ⟨Nat.le_refl _, Nat.le_refl _⟩
  | errorEv c =>
    refine ⟨?_, ?_⟩ <;> (simp only [applyOp]; unfold handleError; (try dsimp only); repeat' split) <;> rfl
  | trimWindow m =>
    refine ⟨?_, ?_⟩ <;>
      (simp only [applyOp]; unfold trimWindowFromTop; (try dsimp only); split) <;>
      first
        | exact Nat.le_refl _
        | simp [syncTotalMessagesFromWindow]
  | syncTotal =>
    refine ⟨Nat.le_refl _, ?_⟩
    simp [applyOp, syncTotalMessagesFromWindow]

/-- C9: across every sequence of core operations (event dispatches plus
window trims and total-resyncs), `foldedMessageCount` and
`totalMessages` never decrease; `syncTotalMessagesFromWindow` only ever
raises `totalMessages` to `max(total, windowStartIndex + window length)`;
and trimming adds exactly the removed count to `foldedMessageCount`.
(`setTotalMessagesFromWindow`, the explicit history-shrinking reset, is
not a core op.) -/
theorem counters_monotone :
    (∀ (ops : List CoreOp) (s : ChatStoreState),
        s.foldedMessageCount ≤ (applyOps s ops).foldedMessageCount ∧
        s.totalMessages ≤ (applyOps s ops).totalMessages) ∧
    (∀ s : ChatStoreState, (syncTotalMessagesFromWindow s).totalMessages =
        max s.totalMessages (s.windowStartIndex + s.allMessages.length)) ∧
    (∀ (s : ChatStoreState) (maxCount : Nat),
        (trimWindowFromTop s maxCount).1.foldedMessageCount =
          s.foldedMessageCount + (trimWindowFromTop s maxCount).2) := by
  refine ⟨?_, fun s => rfl, ?_⟩
  · intro ops
    induction ops with
    | nil => exact fun s => ⟨Nat.le_refl _, Nat.le_refl _⟩
    | cons op ops ih =>
      intro s
      have h1 := applyOp_counters s op
      have h2 := ih (applyOp s op)
      unfold applyOps at h2 ⊢
      simp only [List.foldl_cons]
      omega
  · intro s maxCount
    unfold trimWindowFromTop
    dsimp only
    split
    · rfl
    · simp [syncTotalMessagesFromWindow]

/-- C8 counterexample: the content-delta handler mutates the located
message object in place — after a `chunk` event with terminal usage
data, the pre-existing heap cell holds a different value (the reference
taken before the event observes the change), even though no slot of
`allMessages` was repointed. -/
theorem handleChunkTypeRef_in_place_cex :
    exRefState.cells[0]? = some exEmptyMsg ∧
    (handleChunkTypeRef (fun m _ => m) (fun m _ => m) (fun _ m => m)
        evDoneUsage exRefState).cells[0]? ≠ some exEmptyMsg ∧
    (handleChunkTypeRef (fun m _ => m) (fun m _ => m) (fun _ m => m)
        evDoneUsage exRefState).order = exRefState.order := by
  decide

/-- C8 (amended): the tool-status handler updates a message only by
constructing a new object and replacing the array slot —
`handleToolStatus` allocates a fresh cell for the updated message and
repoints the slot, so the value in every pre-existing heap cell — any
reference taken before the event — is unchanged.  The copy-on-write
discipline is not universal: the content-delta handler mutates the
located message object in place (the C8 counterexample), and
`handleComplete` also writes through the located reference via the
in-place collaborator `flushToolCallBuffer` before replacing the slot. -/
theorem handleToolStatusRef_preserves_cells (c : StreamChunk) (s : RefState)
    (j : Nat) (hj : j < s.cells.length) :
    (handleToolStatusRef c s).cells[j]? = s.cells[j]? := by
  unfold handleToolStatusRef
  (try dsimp only)
  repeat' split
  all_goals try rfl
  all_goals rw [List.getElem?_append, if_pos hj]

/-- Witness for the amended C8 at a concrete tool-status event. -/
theorem handleToolStatusRef_preserves_cells_witness :
    (handleToolStatusRef evToolStatusQueued exRefStateTool).cells[0]? =
      exRefStateTool.cells[0]? :=
  handleToolStatusRef_preserves_cells evToolStatusQueued exRefStateTool 0 (by decide)

theorem teRankTool_spec (p0 : PendingTool) (rest : List PendingTool) (t : ToolCall)
    (hne : p0.id ≠ "") :
    teRankTool (((p0 :: rest).head?).map (fun p => p.id))
        (((p0 :: rest).drop 1).map (fun p => p.id)) t =
      { t with status :=
          if t.id = p0.id then ToolStatus.executing
          else if t.id ∈ rest.map (fun p => p.id) then ToolStatus.queued
          else if t.status = ToolStatus.streaming then ToolStatus.queued
          else t.status } := by
  unfold teRankTool
  simp only [List.head?_cons, Option.map_some, List.drop_succ_cons, List.drop_zero]
  by_cases h1 : t.id = p0.id
  · rw [if_pos (by simp [optStrTruthy, hne, h1]), if_pos h1]
  · rw [if_neg (fun hcond => h1 (Option.some_inj.mp hcond.2).symm), if_neg h1]
    by_cases h2 : t.id ∈ rest.map (fun p => p.id)
    · rw [if_pos (List.elem_eq_true_of_mem h2), if_pos h2]
    · have hcont : ¬((rest.map (fun p => p.id)).contains t.id = true) := by
        intro hcc
        exact h2 (List.mem_of_elem_eq_true hcc)
      rw [if_neg hcont, if_neg h2]

theorem teRebuild_tools_getElem (b : Content → String → Message) (c : StreamChunk)
    (ct : Content) (m : Message) (k : Nat) (t : ToolCall)
    (hk : (mergeTools (m.tools.getD []) ((b ct m.id).tools.getD []))[k]? = some t) :
    ((teRebuild b c ct m).tools.getD [])[k]? =
      some (teRankTool ((c.pendingToolCalls.getD []).head?.map (fun p => p.id))
        (((c.pendingToolCalls.getD []).drop 1).map (fun p => p.id)) t) := by
  have hlen : 0 < (mergeTools (m.tools.getD []) ((b ct m.id).tools.getD [])).length := by
    rcases List.getElem?_eq_some.mp hk with ⟨h, -⟩
    omega
  have hmt : (mergedRebuild b ct m).tools =
      some (mergeTools (m.tools.getD []) ((b ct m.id).tools.getD [])) := by
    show (if 0 < (mergeTools (m.tools.getD []) ((b ct m.id).tools.getD [])).length
          then some (mergeTools (m.tools.getD []) ((b ct m.id).tools.getD []))
          else none) = _
    rw [if_pos hlen]
  have htools : (teRebuild b c ct m).tools =
      ((mergedRebuild b ct m).tools).map (fun ts => ts.map
        (teRankTool ((c.pendingToolCalls.getD []).head?.map (fun p => p.id))
          (((c.pendingToolCalls.getD []).drop 1).map (fun p => p.id)))) := rfl
  rw [htools, hmt]
  simp [List.getElem?_map, hk]

/-- C4: `handleToolsExecuting` always forces `isStreaming := true`; and
when the event carries content and `streamingMessageId` matches message
`i`, that slot holds the merged rebuild whose tools are re-statused by
rank: the tool whose id is first in `pendingToolCalls` becomes
`executing` (the head id is truthy for well-formed events), tools whose
ids appear later in that list become `queued`, a tool still `streaming`
with no assigned rank becomes `queued`, and every other tool keeps its
prior status. -/
theorem handleToolsExecuting_spec (b : Content → String → Message)
    (c : StreamChunk) (s : ChatStoreState) :
    (handleToolsExecuting b c s).isStreaming = true ∧
    (∀ i m ct p0 rest,
      s.allMessages.findIdx? (fun m' => some m'.id == s.streamingMessageId) = some i →
      s.allMessages[i]? = some m →
      c.content = some ct →
      c.pendingToolCalls.getD [] = p0 :: rest →
      p0.id ≠ "" →
      ((handleToolsExecuting b c s).allMessages[i]? = some (teRebuild b c ct m) ∧
       ∀ (k : Nat) (t : ToolCall),
         (mergeTools (m.tools.getD []) ((b ct m.id).tools.getD []))[k]? = some t →
         ((teRebuild b c ct m).tools.getD [])[k]? =
           some { t with status :=
             if t.id = p0.id then ToolStatus.executing
             else if t.id ∈ rest.map (fun p => p.id) then ToolStatus.queued
             else if t.status = ToolStatus.streaming then ToolStatus.queued
             else t.status })) := by
  constructor
  · rfl
  · intro i m ct p0 rest hidx hm hct hp hne
    constructor
    · unfold handleToolsExecuting
      simp only [hidx, hct, List.get?_eq_getElem?, hm]
      have hlen : i < s.allMessages.length := by
        rcases List.getElem?_eq_some.mp hm with ⟨h, -⟩
        exact h
      exact List.getElem?_set_self hlen
    · intro k t hk
      rw [teRebuild_tools_getElem b c ct m k t hk, hp]
      rw [teRankTool_spec p0 rest t hne]

/-- Witness for C4: two streaming tools, pending list `[t1, t2]` —
`t1` becomes `executing`, `t2` becomes `queued`. -/
theorem handleToolsExecuting_spec_witness :
    (handleToolsExecuting exBuilder evToolsExec exState2).isStreaming = true ∧
    (handleToolsExecuting exBuilder evToolsExec exState2).allMessages[0]? =
      some (teRebuild exBuilder evToolsExec default exMsg2) ∧
    ((teRebuild exBuilder evToolsExec default exMsg2).tools.getD [])[0]? =
      some { id := "t1", status := ToolStatus.executing, result := none } ∧
    ((teRebuild exBuilder evToolsExec default exMsg2).tools.getD [])[1]? =
      some { id := "t2", status := ToolStatus.queued, result := none } := by
  have h := handleToolsExecuting_spec exBuilder evToolsExec exState2
  have h2 := h.2 0 exMsg2 default ⟨"t1"⟩ [⟨"t2"⟩] (by decide) (by decide) (by decide)
    (by decide) (by decide)
  refine ⟨h.1, h2.1, ?_, ?_⟩
  · have := h2.2 0 ⟨"t1", ToolStatus.streaming, none⟩ (by decide)
    rw [this]
    decide
  · have := h2.2 1 ⟨"t2", ToolStatus.streaming, none⟩ (by decide)
    rw [this]
    decide

/-- C6: a cancelled event that locates an in-flight message at index `i`
clears `streamingMessageId` and both streaming flags; if the located
message is an empty shell (empty content, no tools field, no part
carrying text or a function call) it is removed from `allMessages`;
otherwise the message is kept (the window keeps its length), its
`localOnly` becomes false, and each of its tools in a non-terminal
status (`streaming`, `queued`, `awaiting_approval`, `executing`,
`awaiting_apply`) is set to `error` while tools already in `success` or
`error` are left unchanged. -/
theorem handleCancelled_spec (c : StreamChunk) (s : ChatStoreState)
    (i : Nat) (m : Message)
    (hloc : locateCancelledMessage s = some i)
    (hm : s.allMessages[i]? = some m) :
    ((handleCancelled c s).streamingMessageId = none ∧
     (handleCancelled c s).isStreaming = false ∧
     (handleCancelled c s).isWaitingForResponse = false) ∧
    (m.content = "" → m.tools = none → hasPartsContent m = false →
       (handleCancelled c s).allMessages = s.allMessages.eraseIdx i) ∧
    (isEmptyShell m = false →
       (handleCancelled c s).allMessages.length = s.allMessages.length ∧
       (handleCancelled c s).allMessages[i]?.map Message.localOnly = some false ∧
       (handleCancelled c s).allMessages[i]?.map Message.streaming = some false ∧
       (handleCancelled c s).allMessages[i]?.map Message.tools =
         some (m.tools.map (fun ts => ts.map (fun tool =>
           if tool.status = ToolStatus.streaming ∨ tool.status = ToolStatus.queued
               ∨ tool.status = ToolStatus.awaiting_approval
               ∨ tool.status = ToolStatus.executing
               ∨ tool.status = ToolStatus.awaiting_apply then
             { tool with status := ToolStatus.error }
           else tool)))) := by
  have hlen : i < s.allMessages.length := by
    rcases List.getElem?_eq_some.mp hm with ⟨h, -⟩
    exact h
  refine ⟨⟨rfl, rfl, rfl⟩, ?_, ?_⟩
  · intro h1 h2 h3
    unfold handleCancelled
    simp only [hloc, List.get?_eq_getElem?, hm,
      isEmptyShell_eq_true m h1 h2 h3, if_true]
  · intro hsh
    unfold handleCancelled
    simp only [hloc, List.get?_eq_getElem?, hm, hsh, Bool.false_eq_true, if_false]
    refine ⟨List.length_set _ _ _, ?_, ?_, ?_⟩ <;>
      rw [List.getElem?_set_self hlen] <;> rfl

/-- Witness for C6: cancelling over a non-empty message with one
already-successful tool keeps the message, and the terminal tool is
unchanged. -/
theorem handleCancelled_spec_witness :
    ((handleCancelled emptyChunk exState).streamingMessageId = none ∧
     (handleCancelled emptyChunk exState).isStreaming = false ∧
     (handleCancelled emptyChunk exState).isWaitingForResponse = false) ∧
    (handleCancelled emptyChunk exState).allMessages.length =
      exState.allMessages.length ∧
    (handleCancelled emptyChunk exState).allMessages[0]?.map Message.localOnly =
      some false ∧
    (handleCancelled emptyChunk exState).allMessages[0]?.map Message.tools =
      some (exMsg.tools.map (fun ts => ts.map (fun tool =>
        if tool.status = ToolStatus.streaming ∨ tool.status = ToolStatus.queued
            ∨ tool.status = ToolStatus.awaiting_approval
            ∨ tool.status = ToolStatus.executing
            ∨ tool.status = ToolStatus.awaiting_apply then
          { tool with status := ToolStatus.error }
        else tool))) := by
  have h := handleCancelled_spec emptyChunk exState 0 exMsg (by decide) (by decide)
  have hk := h.2.2 (by decide)
  exact ⟨h.1, hk.1, hk.2.1, hk.2.2.2⟩

theorem locateToolMessage_eq_none (u : ToolUpdate) (s : ChatStoreState)
    (hP : ∀ m ∈ s.allMessages,
      (m.role == Role.assistant && (m.tools.getD []).any (fun t => t.id == u.id))
        = false) :
    locateToolMessage u s = none := by
  have hlast : findLastIdx?
      (fun m => m.role == Role.assistant
        && (m.tools.getD []).any (fun t => t.id == u.id)) s.allMessages = none :=
    findLastIdx?_eq_none_of_all _ s.allMessages hP
  unfold locateToolMessage
  dsimp only
  by_cases htr : optStrTruthy s.streamingMessageId = true
  · rw [if_pos htr]
    cases hidx : s.allMessages.findIdx? (fun m => some m.id == s.streamingMessageId) with
    | none => simp [hlast]
    | some idx =>
      cases hget : s.allMessages[idx]? with
      | none => simp [List.get?_eq_getElem?, hget, hlast]
      | some m =>
        have hm := hP m (List.getElem?_mem hget)
        rw [Bool.and_eq_false_iff] at hm
        have hcond : ¬(m.role = Role.assistant
            ∧ ((m.tools.getD []).any (fun t => t.id == u.id)) = true) := by
          rintro ⟨hrole, hany⟩
          rcases hm with h | h
          · rw [hrole] at h
            simp at h
          · rw [hany] at h
            simp at h
        simp only [hidx, List.get?_eq_getElem?, hget]
        rw [if_neg hcond]
        simp [hlast]
  · rw [if_neg htr]
    simp [hlast]

/-- C10: `handleToolStatus` is a narrow frame update: every scalar store
field is untouched; the event is a no-op when the `toolStatus` flag or
the tool payload is missing, or when no assistant message contains the
tool id; and in the matched case exactly one message changes — only its
`tools` array, pointwise through `applyToolUpdate`, which rewrites just
the entry whose id matches (status overwritten, result replaced only
when the event carries one) and leaves every other tool entry intact. -/
theorem handleToolStatus_frame (c : StreamChunk) (s : ChatStoreState) :
    ((handleToolStatus c s).streamingMessageId = s.streamingMessageId ∧
     (handleToolStatus c s).isStreaming = s.isStreaming ∧
     (handleToolStatus c s).isWaitingForResponse = s.isWaitingForResponse ∧
     (handleToolStatus c s).checkpoints = s.checkpoints ∧
     (handleToolStatus c s).windowStartIndex = s.windowStartIndex ∧
     (handleToolStatus c s).totalMessages = s.totalMessages ∧
     (handleToolStatus c s).historyFolded = s.historyFolded ∧
     (handleToolStatus c s).foldedMessageCount = s.foldedMessageCount ∧
     (handleToolStatus c s).error = s.error) ∧
    (c.toolStatus = false → handleToolStatus c s = s) ∧
    (c.tool = none → handleToolStatus c s = s) ∧
    (∀ u : ToolUpdate, c.tool = some u →
      ((∀ m ∈ s.allMessages,
          (m.role == Role.assistant
            && (m.tools.getD []).any (fun t => t.id == u.id)) = false) →
        handleToolStatus c s = s) ∧
      (∀ t : ToolCall, t.id ≠ u.id → applyToolUpdate u t = t) ∧
      (∀ (i : Nat) (m : Message), c.toolStatus = true →
        locateToolMessage u s = some i →
        s.allMessages[i]? = some m →
        (handleToolStatus c s).allMessages.length = s.allMessages.length ∧
        (∀ j, j ≠ i → (handleToolStatus c s).allMessages[j]? = s.allMessages[j]?) ∧
        (handleToolStatus c s).allMessages[i]? =
          some { m with tools := m.tools.map (fun ts => ts.map (applyToolUpdate u)) })) := by
  refine ⟨?_, ?_, ?_, ?_⟩
  · refine ⟨?_, ?_, ?_, ?_, ?_, ?_, ?_, ?_, ?_⟩ <;>
      (unfold handleToolStatus; repeat' split) <;> rfl
  · intro h
    unfold handleToolStatus
    rw [if_pos h]
  · intro h
    unfold handleToolStatus
    split
    · rfl
    · rw [h]
  · intro u hu
    refine ⟨?_, ?_, ?_⟩
    · intro hP
      unfold handleToolStatus
      split
      · rfl
      · simp only [hu, locateToolMessage_eq_none u s hP]
    · intro t ht
      unfold applyToolUpdate
      rw [if_pos ht]
    · intro i m htrue hloc hm
      have hlen : i < s.allMessages.length := by
        rcases List.getElem?_eq_some.mp hm with ⟨h, -⟩
        exact h
      have hred : handleToolStatus c s =
          { s with
            allMessages := s.allMessages.set i
              { m with
                tools := m.tools.map (fun ts => ts.map (applyToolUpdate u)) } } := by
        unfold handleToolStatus
        split
        · rename_i hfalse
          rw [htrue] at hfalse
          exact absurd hfalse (by simp)
        · simp only [hu, hloc, List.get?_eq_getElem?, hm]
      rw [hred]
      refine ⟨List.length_set _ _ _, ?_, ?_⟩
      · intro j hj
        exact List.getElem?_set_ne (fun h => hj h.symm)
      · exact List.getElem?_set_self hlen

/-- Witness for C10 at a concrete matched tool-status event. -/
theorem handleToolStatus_frame_witness :
    (handleToolStatus evToolStatusQueued exState).streamingMessageId =
      exState.streamingMessageId ∧
    (handleToolStatus evToolStatusQueued exState).allMessages.length =
      exState.allMessages.length ∧
    (handleToolStatus evToolStatusQueued exState).allMessages[0]? =
      some { exMsg with
             tools := exMsg.tools.map (fun ts => ts.map
               (applyToolUpdate ⟨"t1", ToolStatus.queued, none⟩)) } := by
  have h := handleToolStatus_frame evToolStatusQueued exState
  have hm := (h.2.2.2 ⟨"t1", ToolStatus.queued, none⟩ (by decide)).2.2 0 exMsg
    (by decide) (by decide) (by decide)
  exact ⟨h.1.1, hm.1, hm.2.2⟩
